import Mathlib

/-!
Verification of the pricelist generator (`src/Pricelist.py`).

The script validates two uploaded tables (a base-price table with columns
`SKU, BasePrice` and a factor table with columns `PricelistName, Factor`),
then, for every factor row, derives a pricelist table
`NewPrice = (BasePrice * Factor).round(2)` and writes it as a CSV entry
`<PricelistName>.csv` into an in-memory zip archive.

Modelling choices:
* Numeric cell values are exact rationals (`Dec`, an unnormalized
  numerator/denominator pair kept executable), idealizing pandas' binary
  floating point; `.round(2)` is modelled as exact round-half-to-even at two
  decimal digits, numpy's rounding rule.
* A parsed table (`RawTable`) is its column-name list plus its rows; a key
  cell is either a string or an integer (pandas `astype(str)` renders both),
  and a numeric cell is `Option Dec`, `none` marking a value on which
  `pd.to_numeric(..., errors="coerce")` produces NaN.
* The zip archive is the list of `(entry name, entry bytes)` pairs in write
  order; `zipfile.ZipFile.writestr` appends an entry and never removes an
  existing one, and name-based access (`ZipFile.read`, extraction) resolves
  a duplicated name to the entry written last, which `lookupLast` models.
* `to_csv(index=False)` output is the header line followed by one line per
  row; a float prints in Python's shortest-repr form, which for a value that
  is an exact multiple of 1/100 drops trailing zeros but keeps at least one
  fractional digit (`11 ↦ "11.0"`, `11.5 ↦ "11.5"`, `11.55 ↦ "11.55"`);
  `renderPrice` reproduces this for the rounded values the script writes.
-/

namespace Pricelist

/-- An exact decimal/rational value `num / den` with a positive denominator.
This stands for the numeric values pandas holds after coercion. -/
structure Dec where
  num : ℤ
  den : ℕ
  den_pos : 0 < den
deriving DecidableEq

/-- The rational value denoted by a `Dec`. -/
def Dec.toRat (q : Dec) : ℚ := (q.num : ℚ) / (q.den : ℚ)

/-- An integer as a `Dec`. -/
def Dec.ofInt (n : ℤ) : Dec := ⟨n, 1, Nat.one_pos⟩

/-- Exact product, as in `df_out["BasePrice"] * factor` (line 121). -/
def Dec.mul (a b : Dec) : Dec :=
  ⟨a.num * b.num, a.den * b.den, Nat.mul_pos a.den_pos b.den_pos⟩

/-- Order test `a <= b` by cross-multiplication, as in `df_pl["Factor"] <= 0`
(line 101). -/
def Dec.ble (a b : Dec) : Bool :=
  decide (a.num * (b.den : ℤ) ≤ b.num * (a.den : ℤ))

/-- Round `n / d` (with `d > 0`) to the nearest integer, ties to even:
numpy's rounding rule, executable over `ℤ`. -/
def roundHalfEven (n : ℤ) (d : ℕ) : ℤ :=
  let f := n / (d : ℤ)
  let r := n % (d : ℤ)
  if 2 * r < (d : ℤ) then f
  else if (d : ℤ) < 2 * r then f + 1
  else if f % 2 = 0 then f else f + 1

/-- `Series.round(2)` (line 121): round to two fractional digits,
half to even. -/
def Dec.round2 (q : Dec) : Dec :=
  ⟨roundHalfEven (q.num * 100) q.den, 100, by decide⟩

/-- Rounding to the nearest integer with ties to even, stated over `ℚ`;
the specification-level meaning of `roundHalfEven`. -/
def rhe (q : ℚ) : ℤ :=
  let f := ⌊q⌋
  if q - (f : ℚ) < 1 / 2 then f
  else if 1 / 2 < q - (f : ℚ) then f + 1
  else if f % 2 = 0 then f else f + 1

/-- `round(x, 2)` over `ℚ`: the specification-level meaning of
`Dec.round2`. -/
def round2Rat (q : ℚ) : ℚ := (rhe (q * 100) : ℚ) / 100

/-- A key cell of an uploaded table: pandas parses both text and numbers,
and `astype(str)` (lines 71-72) renders either as a string. -/
inductive Cell where
  | str (s : String)
  | int (n : ℤ)
deriving DecidableEq

/-- `astype(str)` on one cell. -/
def cellToString : Cell → String
  | .str s => s
  | .int n => toString n

/-- `.str.strip()` (lines 71-72): drop surrounding whitespace. -/
def pdStrip (s : String) : String :=
  String.mk (((s.data.dropWhile fun c => c.isWhitespace).reverse.dropWhile
    fun c => c.isWhitespace).reverse)

/-- A parsed upload: its column names and its rows. Each row is the key cell
(`SKU` resp. `PricelistName`) paired with the numeric cell (`BasePrice`
resp. `Factor`) already taken through `pd.to_numeric(errors="coerce")`,
`none` meaning the value is not numeric. When a required column is missing
validation stops before any row is read. -/
structure RawTable where
  cols : List String
  rows : List (Cell × Option Dec)

/-- A validated base-price row: trimmed SKU string and numeric price. -/
structure VBase where
  sku : String
  basePrice : Dec
deriving DecidableEq

/-- A validated factor row: trimmed pricelist name and numeric factor. -/
structure VFactor where
  name : String
  factor : Dec
deriving DecidableEq

/-- One row of a generated pricelist table (`df_out`, lines 120-123). -/
structure OutRow where
  sku : String
  newPrice : Dec
deriving DecidableEq

/-- The terminal diagnostics of the script, one per `st.error`/`st.stop`
site (lines 55-103). -/
inductive PipeError where
  | emptyBase
  | emptyFactors
  | missingCols (label : String) (missing : List String)
  | blankSKU
  | blankPricelistName
  | nonNumericBasePrice
  | nonNumericFactor
  | factorNonPositive
deriving DecidableEq

/-- The error taxonomy of spec §7. -/
inductive ErrClass where
  | emptyInput
  | schema
  | dataQuality
deriving DecidableEq

/-- Classify a diagnostic per spec §7: missing columns are `SchemaError`;
blank keys, non-numeric values and non-positive factors are
`DataQualityError`. -/
def errClass : PipeError → ErrClass
  | .emptyBase => .emptyInput
  | .emptyFactors => .emptyInput
  | .missingCols _ _ => .schema
  | _ => .dataQuality

/-- `validate_required_columns` (lines 31-39): the required columns absent
from the table, in required order. -/
def missingColumns (dfCols required : List String) : List String :=
  required.filter fun c => !(dfCols.contains c)

/-- The key column after `astype(str).str.strip()` (lines 71-72). -/
def trimmedKeys (t : RawTable) : List String :=
  t.rows.map fun r => pdStrip (cellToString r.1)

/-- The base table after validation rewrote its key column and coerced
`BasePrice` (lines 71, 85); the `getD` default is unreachable because the
NaN check (line 88) has already passed when this value is consumed. -/
def coerceBaseRows (b : RawTable) : List VBase :=
  b.rows.map fun r => ⟨pdStrip (cellToString r.1), r.2.getD (Dec.ofInt 0)⟩

/-- The factor table after validation rewrote its key column and coerced
`Factor` (lines 72, 86). -/
def coerceFactorRows (p : RawTable) : List VFactor :=
  p.rows.map fun r => ⟨pdStrip (cellToString r.1), r.2.getD (Dec.ofInt 0)⟩

/-- The validation chain of lines 55-98, in source order: emptiness of each
file, required columns of each file, blank keys after trimming, numeric
coercion. Stops at the first failure; on success yields the rewritten
tables. -/
def checksBeforeFactor (b p : RawTable) :
    Except PipeError (List VBase × List VFactor) :=
  if b.rows.isEmpty then .error .emptyBase
  else if p.rows.isEmpty then .error .emptyFactors
  else if missingColumns b.cols ["SKU", "BasePrice"] ≠ [] then
    .error (.missingCols "Base Price file" (missingColumns b.cols ["SKU", "BasePrice"]))
  else if missingColumns p.cols ["PricelistName", "Factor"] ≠ [] then
    .error (.missingCols "Pricelist Factors file"
      (missingColumns p.cols ["PricelistName", "Factor"]))
  else if (trimmedKeys b).any (fun s => s == "") then .error .blankSKU
  else if (trimmedKeys p).any (fun s => s == "") then .error .blankPricelistName
  else if (b.rows.map Prod.snd).any Option.isNone then .error .nonNumericBasePrice
  else if (p.rows.map Prod.snd).any Option.isNone then .error .nonNumericFactor
  else .ok (coerceBaseRows b, coerceFactorRows p)

/-- Full validation: the chain of lines 55-98 followed by the factor domain
check `(df_pl["Factor"] <= 0).any()` (lines 101-103). -/
def validate (b p : RawTable) : Except PipeError (List VBase × List VFactor) :=
  match checksBeforeFactor b p with
  | .error e => .error e
  | .ok (vb, vf) =>
    if vf.any (fun f => Dec.ble f.factor (Dec.ofInt 0)) then .error .factorNonPositive
    else .ok (vb, vf)

/-- Lines 120-123: `df_out = df_base.copy()`,
`df_out["NewPrice"] = (df_out["BasePrice"] * factor).round(2)`,
`df_out = df_out[["SKU", "NewPrice"]]`. -/
def transform (rows : List VBase) (factor : Dec) : List OutRow :=
  rows.map fun r => ⟨r.sku, Dec.round2 (r.basePrice.mul factor)⟩

/-- Python's shortest-repr rendering of a price that `round2` produced (an
exact multiple of 1/100): trailing zeros dropped, at least one fractional
digit kept. -/
def renderPrice (q : Dec) : String :=
  let n : ℤ := q.num * 100 / (q.den : ℤ)
  let sign := if n < 0 then "-" else ""
  let m := n.natAbs
  let ip := m / 100
  let fp := m % 100
  sign ++ toString ip ++ "." ++
    (if fp % 10 == 0 then toString (fp / 10)
     else if fp < 10 then "0" ++ toString fp
     else toString fp)

/-- `df_out.to_csv(csv_buffer, index=False)` (lines 125-126): header line and
one line per row, each terminated by a newline, no index column. -/
def csvOf (rows : List OutRow) : String :=
  "SKU,NewPrice\n" ++
    String.join (rows.map fun r => r.sku ++ "," ++ renderPrice r.newPrice ++ "\n")

/-- One loop iteration's archive entry (lines 120-129): name
`<PricelistName>.csv`, contents the serialized derived table. -/
def entryFor (dfBase : List VBase) (f : VFactor) : String × String :=
  (f.name ++ ".csv", csvOf (transform dfBase f.factor))

/-- The generation loop of lines 116-129, with the zip state explicit: the
loop carries the base table and the archive built so far, and each iteration
computes its output from a copy of the base table and appends one entry
(`zipfile.writestr` appends; it never replaces an existing entry). -/
def genLoop : List VBase × List (String × String) → List VFactor →
    List VBase × List (String × String)
  | st, [] => st
  | (dfBase, acc), f :: rest => genLoop (dfBase, acc ++ [entryFor dfBase f]) rest

/-- The archive produced by the generation loop, as its ordered entry list. -/
def genEntries (vb : List VBase) (vf : List VFactor) : List (String × String) :=
  (genLoop (vb, []) vf).2

/-- The whole pipeline of one invocation: validation (lines 42-103), then
archive generation (lines 113-131). On any validation failure the script
stops and no archive exists. -/
def pipeline (b p : RawTable) : Except PipeError (List (String × String)) :=
  (validate b p).map fun v => genEntries v.1 v.2

/-- Name-based access to an archive entry: `zipfile` resolves a duplicated
name to the last entry written under it. -/
def lookupLast (ar : List (String × String)) (name : String) : Option String :=
  ((ar.filter fun e => e.1 == name).map Prod.snd).getLast?

/-- Modelled from the spec: §4.2's fixed validation sequence — non-empty
table, required columns, blank keys after trimming, numeric coercion, factor
domain — and the single diagnostic the first failing check reports. -/
def specFirstError (b p : RawTable) : Option PipeError :=
  if b.rows.isEmpty then some .emptyBase
  else if p.rows.isEmpty then some .emptyFactors
  else if missingColumns b.cols ["SKU", "BasePrice"] ≠ [] then
    some (.missingCols "Base Price file" (missingColumns b.cols ["SKU", "BasePrice"]))
  else if missingColumns p.cols ["PricelistName", "Factor"] ≠ [] then
    some (.missingCols "Pricelist Factors file"
      (missingColumns p.cols ["PricelistName", "Factor"]))
  else if (trimmedKeys b).any (fun s => s == "") then some .blankSKU
  else if (trimmedKeys p).any (fun s => s == "") then some .blankPricelistName
  else if (b.rows.map Prod.snd).any Option.isNone then some .nonNumericBasePrice
  else if (p.rows.map Prod.snd).any Option.isNone then some .nonNumericFactor
  else if (coerceFactorRows p).any (fun f => Dec.ble f.factor (Dec.ofInt 0)) then
    some .factorNonPositive
  else none

/-- Sample upload: base-price table `[{SKU: "A", BasePrice: 10}]`. -/
def baseA : RawTable :=
  ⟨["SKU", "BasePrice"], [(.str "A", some ⟨10, 1, Nat.one_pos⟩)]⟩

/-- Sample upload: factor table `[{PricelistName: "P1", Factor: 1.1}]`. -/
def factorsP1 : RawTable :=
  ⟨["PricelistName", "Factor"], [(.str "P1", some ⟨11, 10, by decide⟩)]⟩

/-- Sample upload: factor table with a duplicated pricelist name,
`[{P1, 2}, {P1, 3}]`. -/
def factorsDup : RawTable :=
  ⟨["PricelistName", "Factor"],
    [(.str "P1", some ⟨2, 1, Nat.one_pos⟩), (.str "P1", some ⟨3, 1, Nat.one_pos⟩)]⟩

/-- Sample upload: factor table with factor 0, `[{P1, 0}]`. -/
def factorsZero : RawTable :=
  ⟨["PricelistName", "Factor"], [(.str "P1", some ⟨0, 1, Nat.one_pos⟩)]⟩

/-- Sample upload: base table with an untrimmed string SKU and an integer
SKU, `[{" A ", 10}, {5, 4}]`. -/
def baseTrim : RawTable :=
  ⟨["SKU", "BasePrice"],
    [(.str " A ", some ⟨10, 1, Nat.one_pos⟩), (.int 5, some ⟨4, 1, Nat.one_pos⟩)]⟩

/-- The validated rows of `baseA`. -/
def vbA : List VBase := [⟨"A", ⟨10, 1, Nat.one_pos⟩⟩]

/-- The validated rows of `factorsP1`. -/
def vfA : List VFactor := [⟨"P1", ⟨11, 10, by decide⟩⟩]

end Pricelist
namespace Pricelist

lemma Dec.toRat_mul (a b : Dec) : (a.mul b).toRat = a.toRat * b.toRat := by
  unfold Dec.toRat Dec.mul
  push_cast
  rw [div_mul_div_comm]

lemma roundHalfEven_eq_rhe (n : ℤ) (d : ℕ) (hd : 0 < d) :
    roundHalfEven n d = rhe ((n : ℚ) / (d : ℚ)) := by
  have hdQ : (0 : ℚ) < (d : ℚ) := by exact_mod_cast hd
  have hd0 : ((d : ℚ)) ≠ 0 := ne_of_gt hdQ
  set f : ℤ := n / (d : ℤ) with hf
  set r : ℤ := n % (d : ℤ) with hr
  have hfloor : ⌊(n : ℚ) / (d : ℚ)⌋ = f := Rat.floor_intCast_div_natCast n d
  have hn : (n : ℚ) = (d : ℚ) * (f : ℚ) + (r : ℚ) := by
    have h0 := Int.ediv_add_emod n (d : ℤ)
    rw [← hf, ← hr] at h0
    exact_mod_cast h0.symm
  have hsub : (n : ℚ) / (d : ℚ) - (f : ℚ) = (r : ℚ) / (d : ℚ) := by
    field_simp
    linarith [hn]
  have hq1 : ((n : ℚ) / (d : ℚ) - (f : ℚ) < 1 / 2) ↔ (2 * r < (d : ℤ)) := by
    rw [hsub, div_lt_div_iff₀ hdQ two_pos]
    constructor
    · intro h
      have h2 : ((2 * r : ℤ) : ℚ) < ((d : ℕ) : ℚ) := by push_cast; linarith
      exact_mod_cast h2
    · intro h
      have h2 : ((2 * r : ℤ) : ℚ) < ((d : ℕ) : ℚ) := by exact_mod_cast h
      push_cast at h2
      linarith
  have hq2 : (1 / 2 < (n : ℚ) / (d : ℚ) - (f : ℚ)) ↔ ((d : ℤ) < 2 * r) := by
    rw [hsub, div_lt_div_iff₀ two_pos hdQ]
    constructor
    · intro h
      have h2 : ((d : ℕ) : ℚ) < ((2 * r : ℤ) : ℚ) := by push_cast; linarith
      exact_mod_cast h2
    · intro h
      have h2 : ((d : ℕ) : ℚ) < ((2 * r : ℤ) : ℚ) := by exact_mod_cast h
      push_cast at h2
      linarith
  show (if 2 * r < (d : ℤ) then f else if (d : ℤ) < 2 * r then f + 1
      else if f % 2 = 0 then f else f + 1) = rhe ((n : ℚ) / (d : ℚ))
  rw [rhe]
  simp only [hfloor]
  by_cases h1 : 2 * r < (d : ℤ)
  · rw [if_pos h1, if_pos (hq1.mpr h1)]
  · rw [if_neg h1, if_neg (fun hc => h1 (hq1.mp hc))]
    by_cases h2 : (d : ℤ) < 2 * r
    · rw [if_pos h2, if_pos (hq2.mpr h2)]
    · rw [if_neg h2, if_neg (fun hc => h2 (hq2.mp hc))]

lemma Dec.round2_toRat (q : Dec) : (Dec.round2 q).toRat = round2Rat q.toRat := by
  unfold Dec.round2 round2Rat Dec.toRat
  rw [roundHalfEven_eq_rhe _ _ q.den_pos]
  have harg : ((q.num * 100 : ℤ) : ℚ) / ((q.den : ℕ) : ℚ) =
      (q.num : ℚ) / ((q.den : ℕ) : ℚ) * 100 := by
    push_cast
    ring
  rw [harg]
  norm_num

lemma Dec.ble_zero_iff (q : Dec) : Dec.ble q (Dec.ofInt 0) = true ↔ q.toRat ≤ 0 := by
  unfold Dec.ble Dec.ofInt Dec.toRat
  have hdQ : (0 : ℚ) < (q.den : ℚ) := by exact_mod_cast q.den_pos
  simp only [decide_eq_true_eq, Nat.cast_one, mul_one, zero_mul]
  constructor
  · intro h
    exact div_nonpos_of_nonpos_of_nonneg (by exact_mod_cast h) (le_of_lt hdQ)
  · intro h
    rcases div_nonpos_iff.mp h with ⟨h1, h2⟩ | ⟨h1, h2⟩
    · exact absurd (lt_of_lt_of_le hdQ h2) (lt_irrefl 0)
    · exact_mod_cast h1

lemma genLoop_fst (vf : List VFactor) :
    ∀ st : List VBase × List (String × String), (genLoop st vf).1 = st.1 := by
  induction vf with
  | nil => intro st; rfl
  | cons f rest ih =>
    intro st
    cases st with
    | mk base acc => simp only [genLoop]; exact ih _

lemma genLoop_snd (vf : List VFactor) :
    ∀ (base : List VBase) (acc : List (String × String)),
      (genLoop (base, acc) vf).2 = acc ++ vf.map (entryFor base) := by
  induction vf with
  | nil => intro base acc; simp [genLoop]
  | cons f rest ih =>
    intro base acc
    simp only [genLoop, List.map_cons]
    rw [ih]
    simp [List.append_assoc]

lemma genEntries_eq (vb : List VBase) (vf : List VFactor) :
    genEntries vb vf = vf.map (entryFor vb) := by
  unfold genEntries
  rw [genLoop_snd]
  simp

lemma checksBeforeFactor_ok {b p : RawTable} {vb : List VBase} {vf : List VFactor}
    (h : checksBeforeFactor b p = .ok (vb, vf)) :
    vb = coerceBaseRows b ∧ vf = coerceFactorRows p := by
  unfold checksBeforeFactor at h
  split_ifs at h
  all_goals simp_all

lemma validate_ok {b p : RawTable} {vb : List VBase} {vf : List VFactor}
    (h : validate b p = .ok (vb, vf)) :
    checksBeforeFactor b p = .ok (vb, vf) := by
  unfold validate at h
  cases hc : checksBeforeFactor b p with
  | error e => rw [hc] at h; simp at h
  | ok v =>
    cases v with
    | mk vb2 vf2 =>
      rw [hc] at h
      dsimp only at h
      split_ifs at h
      injection h with hpair
      injection hpair with h1 h2
      subst h1
      subst h2
      rfl

lemma pipeline_ok {b p : RawTable} {ar : List (String × String)}
    (h : pipeline b p = .ok ar) :
    ∃ vb vf, validate b p = .ok (vb, vf) ∧ ar = genEntries vb vf := by
  unfold pipeline at h
  cases hv : validate b p with
  | error e => rw [hv] at h; simp [Except.map] at h
  | ok v =>
    cases v with
    | mk vb vf =>
      rw [hv] at h
      simp [Except.map] at h
      exact ⟨vb, vf, rfl, h.symm⟩

lemma str_append_right_cancel {a b c : String} (h : a ++ c = b ++ c) : a = b := by
  cases a with
  | mk da =>
    cases b with
    | mk db =>
      cases c with
      | mk dc =>
        have hd : da ++ dc = db ++ dc := by
          have h2 := congrArg String.data h
          simpa using h2
        exact congrArg String.mk (List.append_cancel_right hd)

end Pricelist
namespace Pricelist

/-- C1: For every generated pricelist table, each output row's NewPrice is the
rounding of that row's BasePrice times the pricelist's Factor to two decimal
digits (half to even): at the code level the row is
`⟨sku, round2 (basePrice * factor)⟩`, and read as rationals the price equals
`round2Rat (BasePrice * Factor)`. -/
theorem newPrice_is_rounded_product
    (b p : RawTable) (vb : List VBase) (vf : List VFactor)
    (h : validate b p = Except.ok (vb, vf))
    (f : VFactor) (hf : f ∈ vf) (j : ℕ) (hj : j < vb.length) :
    (transform vb f.factor).get? j =
      some ⟨(vb.get ⟨j, hj⟩).sku, Dec.round2 ((vb.get ⟨j, hj⟩).basePrice.mul f.factor)⟩ ∧
    (Dec.round2 ((vb.get ⟨j, hj⟩).basePrice.mul f.factor)).toRat =
      round2Rat ((vb.get ⟨j, hj⟩).basePrice.toRat * f.factor.toRat) := by
  constructor
  · unfold transform
    rw [List.get?_map, List.get?_eq_get hj]
    rfl
  · rw [Dec.round2_toRat, Dec.toRat_mul]

/-- Witness for `newPrice_is_rounded_product` at the concrete single-row
input. -/
theorem newPrice_is_rounded_product_witness :
    (transform vbA (Dec.mk 11 10 (by decide))).get? 0 =
      some ⟨(vbA.get ⟨0, by decide⟩).sku,
        Dec.round2 ((vbA.get ⟨0, by decide⟩).basePrice.mul ⟨11, 10, by decide⟩)⟩ ∧
    (Dec.round2 ((vbA.get ⟨0, by decide⟩).basePrice.mul ⟨11, 10, by decide⟩)).toRat =
      round2Rat ((vbA.get ⟨0, by decide⟩).basePrice.toRat *
        (Dec.mk 11 10 (by decide)).toRat) :=
  newPrice_is_rounded_product baseA factorsP1 vbA vfA rfl
    ⟨"P1", ⟨11, 10, by decide⟩⟩ (by decide) 0 (by decide)

/-- C2: For every input passing validation, every generated table has exactly
as many rows as the base-price table, in the same row order. -/
theorem generated_table_row_count
    (b p : RawTable) (vb : List VBase) (vf : List VFactor)
    (h : validate b p = Except.ok (vb, vf)) (f : VFactor) (hf : f ∈ vf) :
    (transform vb f.factor).length = vb.length ∧
    (transform vb f.factor).map OutRow.sku = vb.map VBase.sku ∧
    vb.length = b.rows.length := by
  refine ⟨List.length_map _ _, ?_, ?_⟩
  · unfold transform
    rw [List.map_map]
    rfl
  · obtain ⟨hvb, -⟩ := checksBeforeFactor_ok (validate_ok h)
    subst hvb
    exact List.length_map _ _

/-- Witness for `generated_table_row_count` at the concrete single-row
input. -/
theorem generated_table_row_count_witness :
    (transform vbA (Dec.mk 11 10 (by decide))).length = vbA.length ∧
    (transform vbA (Dec.mk 11 10 (by decide))).map OutRow.sku = vbA.map VBase.sku ∧
    vbA.length = baseA.rows.length :=
  generated_table_row_count baseA factorsP1 vbA vfA rfl
    ⟨"P1", ⟨11, 10, by decide⟩⟩ (by decide)

/-- C3 counterexample: with a duplicated trimmed pricelist name the archive
holds one entry per factor row (2), while the factor file holds 1 distinct
trimmed name, so entry count and distinct-name count differ. -/
theorem archive_count_is_rows_not_distinct :
    (pipeline baseA factorsDup).map List.length = Except.ok 2 ∧
    ((trimmedKeys factorsDup).dedup).length = 1 ∧ (2 : ℕ) ≠ 1 :=
  ⟨rfl, by decide, by decide⟩

/-- C3 amended: the archive entry count equals the number of rows of the
factor file (the count the script itself reports at line 140). -/
theorem archive_count_eq_factor_rows
    (b p : RawTable) (ar : List (String × String))
    (h : pipeline b p = Except.ok ar) :
    ar.length = p.rows.length := by
  obtain ⟨vb, vf, hv, har⟩ := pipeline_ok h
  obtain ⟨-, hvf⟩ := checksBeforeFactor_ok (validate_ok hv)
  subst har
  rw [genEntries_eq, List.length_map, hvf]
  exact List.length_map _ _

/-- Witness for `archive_count_eq_factor_rows` on the duplicated-name
input. -/
theorem archive_count_eq_factor_rows_witness :
    ([("P1.csv", "SKU,NewPrice\nA,20.0\n"), ("P1.csv", "SKU,NewPrice\nA,30.0\n")]
      : List (String × String)).length = factorsDup.rows.length :=
  archive_count_eq_factor_rows baseA factorsDup
    [("P1.csv", "SKU,NewPrice\nA,20.0\n"), ("P1.csv", "SKU,NewPrice\nA,30.0\n")] rfl

/-- C4 counterexample: with two factor rows named "P1" the archive holds two
entries named "P1.csv", not exactly one. -/
theorem duplicate_name_yields_two_entries :
    (pipeline baseA factorsDup).map
      (fun ar => (ar.filter fun e => e.1 == "P1.csv").length) = Except.ok 2 ∧
    (2 : ℕ) ≠ 1 :=
  ⟨rfl, by decide⟩

/-- C4 amended: duplicated names are appended, one entry per row, and
name-based archive access resolves to the entry of the last row bearing the
name, whose contents are computed from that row's factor; no error is
raised. -/
theorem lookup_resolves_to_last_duplicate
    (b p : RawTable) (vb : List VBase) (vf : List VFactor)
    (l1 l2 : List VFactor) (f : VFactor)
    (h : validate b p = Except.ok (vb, vf)) (hvf : vf = l1 ++ f :: l2)
    (hlast : ∀ g ∈ l2, g.name ≠ f.name) :
    lookupLast (genEntries vb vf) (f.name ++ ".csv") =
      some (csvOf (transform vb f.factor)) := by
  subst hvf
  rw [genEntries_eq]
  unfold lookupLast
  rw [List.map_append, List.map_cons, List.filter_append, List.filter_cons]
  have hl2 : ((l2.map (entryFor vb)).filter fun e => e.1 == f.name ++ ".csv") = [] := by
    rw [List.filter_eq_nil_iff]
    intro e he
    obtain ⟨g, hg, rfl⟩ := List.mem_map.mp he
    simp only [entryFor, beq_iff_eq]
    exact fun hEq => hlast g hg (str_append_right_cancel hEq)
  rw [hl2]
  simp only [entryFor, beq_self_eq_true, if_true]
  rw [List.map_append]
  exact List.getLast?_concat _

/-- Witness for `lookup_resolves_to_last_duplicate` on the duplicated-name
input: lookup yields the table computed from the last "P1" row (factor 3). -/
theorem lookup_resolves_to_last_duplicate_witness :
    lookupLast (genEntries vbA [⟨"P1", ⟨2, 1, Nat.one_pos⟩⟩, ⟨"P1", ⟨3, 1, Nat.one_pos⟩⟩])
        ("P1" ++ ".csv") =
      some (csvOf (transform vbA (Dec.mk 3 1 Nat.one_pos))) :=
  lookup_resolves_to_last_duplicate baseA factorsDup vbA
    [⟨"P1", ⟨2, 1, Nat.one_pos⟩⟩, ⟨"P1", ⟨3, 1, Nat.one_pos⟩⟩]
    [⟨"P1", ⟨2, 1, Nat.one_pos⟩⟩] [] ⟨"P1", ⟨3, 1, Nat.one_pos⟩⟩ rfl rfl
    (by simp)

/-- C5 counterexample: the serialized value for a NewPrice of 11 is "11.0"
(Python float repr), not the fixed two-decimal "11.00" the claim states. -/
theorem price_written_shortest_not_two_decimals :
    pipeline baseA factorsP1 = Except.ok [("P1.csv", "SKU,NewPrice\nA,11.0\n")] ∧
    renderPrice (Dec.round2 (Dec.mul ⟨10, 1, Nat.one_pos⟩ ⟨11, 10, by decide⟩)) = "11.0" ∧
    "11.0" ≠ "11.00" :=
  ⟨rfl, rfl, by decide⟩

/-- C5 amended: every archive entry is named from its factor row and its text
is the header line followed by the data rows (no index column), each price
rendered in Python's shortest float repr of the 2-decimal-rounded value. -/
theorem entry_text_header_rows_no_index
    (b p : RawTable) (vb : List VBase) (vf : List VFactor)
    (h : validate b p = Except.ok (vb, vf))
    (e : String × String) (he : e ∈ genEntries vb vf) :
    ∃ f ∈ vf, e.1 = f.name ++ ".csv" ∧
      e.2 = "SKU,NewPrice\n" ++
        String.join ((transform vb f.factor).map fun r =>
          r.sku ++ "," ++ renderPrice r.newPrice ++ "\n") := by
  rw [genEntries_eq] at he
  obtain ⟨f, hf, rfl⟩ := List.mem_map.mp he
  exact ⟨f, hf, rfl, rfl⟩

/-- Witness for `entry_text_header_rows_no_index` at the concrete single-row
input. -/
theorem entry_text_header_rows_no_index_witness :
    ∃ f ∈ vfA, ("P1.csv", "SKU,NewPrice\nA,11.0\n").1 = f.name ++ ".csv" ∧
      ("P1.csv", "SKU,NewPrice\nA,11.0\n").2 = "SKU,NewPrice\n" ++
        String.join ((transform vbA f.factor).map fun r =>
          r.sku ++ "," ++ renderPrice r.newPrice ++ "\n") :=
  entry_text_header_rows_no_index baseA factorsP1 vbA vfA rfl
    ("P1.csv", "SKU,NewPrice\nA,11.0\n") (by decide)

/-- C6: On base `[{SKU: "A", BasePrice: 10}]` and factors
`[{PricelistName: "P1", Factor: 1.1}]` the archive is exactly one file
"P1.csv" whose first line is "SKU,NewPrice" and whose second line is
"A,11.0". -/
theorem single_row_example_archive :
    pipeline baseA factorsP1 = Except.ok [("P1.csv", "SKU,NewPrice\nA,11.0\n")] ∧
    "SKU,NewPrice\nA,11.0\n" = "SKU,NewPrice" ++ "\n" ++ "A,11.0" ++ "\n" :=
  ⟨rfl, rfl⟩

/-- C7: If any factor value is zero or negative (and the checks before the
factor-domain check pass), the pipeline stops with the non-positive-factor
diagnostic — a `DataQualityError` — and produces no archive. -/
theorem nonpositive_factor_stops_before_transform
    (b p : RawTable) (vb : List VBase) (vf : List VFactor)
    (hc : checksBeforeFactor b p = Except.ok (vb, vf))
    (hf : ∃ f ∈ vf, f.factor.toRat ≤ 0) :
    pipeline b p = Except.error PipeError.factorNonPositive ∧
    errClass PipeError.factorNonPositive = ErrClass.dataQuality := by
  refine ⟨?_, rfl⟩
  unfold pipeline validate
  rw [hc]
  obtain ⟨f, hfm, hle⟩ := hf
  have hany : (vf.any fun g => Dec.ble g.factor (Dec.ofInt 0)) = true :=
    List.any_eq_true.mpr ⟨f, hfm, (Dec.ble_zero_iff f.factor).mpr hle⟩
  dsimp only
  rw [if_pos hany]
  rfl

/-- Witness for `nonpositive_factor_stops_before_transform` at factor 0. -/
theorem nonpositive_factor_stops_before_transform_witness :
    pipeline baseA factorsZero = Except.error PipeError.factorNonPositive ∧
    errClass PipeError.factorNonPositive = ErrClass.dataQuality :=
  nonpositive_factor_stops_before_transform baseA factorsZero vbA
    [⟨"P1", ⟨0, 1, Nat.one_pos⟩⟩] rfl
    ⟨⟨"P1", ⟨0, 1, Nat.one_pos⟩⟩, by decide, by simp [Dec.toRat]⟩

/-- C8: The pipeline reports an error exactly when the spec's fixed validation
sequence (non-empty tables, required columns, blank keys, numeric coercion,
factor domain) has a failing check, and the single diagnostic reported is the
first failing check's; in every such case no archive value exists. -/
theorem validation_sequence_first_error
    (b p : RawTable) (e : PipeError) :
    pipeline b p = Except.error e ↔ specFirstError b p = some e := by
  unfold pipeline validate checksBeforeFactor specFirstError
  split_ifs <;> simp_all [Except.map]
  rename_i hneg
  have hcond : ¬∃ x ∈ coerceFactorRows p, x.factor.ble (Dec.ofInt 0) = true := by
    rintro ⟨x, hx, hbx⟩
    exact Bool.false_ne_true ((hneg x hx).symm.trans hbx)
  rw [if_neg hcond]
  simp

/-- C9: The generation loop threads the validated base table through
unchanged — each iteration computes from a copy — so the archive is a map
over the factor rows: every entry depends only on the base table and its own
row's factor, not on the entries generated before it. -/
theorem generation_leaves_base_unchanged (vb : List VBase) (vf : List VFactor) :
    (genLoop (vb, []) vf).1 = vb ∧
    genEntries vb vf = vf.map (entryFor vb) :=
  ⟨genLoop_fst vf (vb, []), genEntries_eq vb vf⟩

/-- C10: The SKU values of every generated table are the string-converted,
whitespace-trimmed forms of the uploaded SKU cells, because validation
rewrites the SKU column in place before the transform reads it. -/
theorem output_skus_trimmed_strings
    (b p : RawTable) (vb : List VBase) (vf : List VFactor)
    (h : validate b p = Except.ok (vb, vf)) (f : VFactor) (hf : f ∈ vf) :
    vb.map VBase.sku = b.rows.map (fun r => pdStrip (cellToString r.1)) ∧
    (transform vb f.factor).map OutRow.sku =
      b.rows.map (fun r => pdStrip (cellToString r.1)) := by
  obtain ⟨hvb, -⟩ := checksBeforeFactor_ok (validate_ok h)
  subst hvb
  constructor
  · unfold coerceBaseRows
    rw [List.map_map]
    rfl
  · unfold transform coerceBaseRows
    rw [List.map_map, List.map_map]
    rfl

/-- Witness for `output_skus_trimmed_strings` on a base table holding an
untrimmed string SKU " A " and an integer SKU 5. -/
theorem output_skus_trimmed_strings_witness :
    ([⟨"A", ⟨10, 1, Nat.one_pos⟩⟩, ⟨"5", ⟨4, 1, Nat.one_pos⟩⟩] : List VBase).map
        VBase.sku = baseTrim.rows.map (fun r => pdStrip (cellToString r.1)) ∧
    (transform [⟨"A", ⟨10, 1, Nat.one_pos⟩⟩, ⟨"5", ⟨4, 1, Nat.one_pos⟩⟩]
        (Dec.mk 11 10 (by decide))).map OutRow.sku =
      baseTrim.rows.map (fun r => pdStrip (cellToString r.1)) :=
  output_skus_trimmed_strings baseTrim factorsP1
    [⟨"A", ⟨10, 1, Nat.one_pos⟩⟩, ⟨"5", ⟨4, 1, Nat.one_pos⟩⟩] vfA rfl
    ⟨"P1", ⟨11, 10, by decide⟩⟩ (by decide)

end Pricelist
